import Mathlib

/-!
Verification development for a small HTTP/1.1 static-file server
(COP4635 project 1). The C++ sources are embedded shallowly:
strings are lists of characters, `std::string::find`/`substr` become
`strFind`/`substr`, the filesystem calls (`realpath`, `stat`, reads)
become an explicit `FileSystem` record of pure functions, and fallible
code returns `Option`/`Except`.

Components whose headers are not part of the snapshot
(`http_method.hpp`, `http_status.hpp`, `http_mime.hpp`,
`http_encoding.hpp`, `http_message.hpp`) are modelled from the
specification; each such definition carries a doc comment starting
with `Modelled from the spec:`.
-/

/-- Shorthand turning a string literal into the character-list
representation used throughout the development. -/
def str (s : String) : List Char := s.data

/-- The CRLF line terminator. -/
def crlf : List Char := str "\r\n"

/-- Embedding of `std::string::find(needle)`: index of the first
occurrence of `needle` in `hay`, `none` for `npos`. -/
def strFind (hay needle : List Char) : Option Nat :=
  match hay with
  | [] => bif needle.isEmpty then some 0 else none
  | c :: t => bif needle.isPrefixOf (c :: t) then some 0 else (strFind t needle).map (· + 1)

/-- Embedding of `std::string::find(needle, pos)`: the search starts at
`pos`; a found index is absolute. -/
def strFindFrom (hay needle : List Char) (pos : Nat) : Option Nat :=
  (strFind (hay.drop pos) needle).map (· + pos)

/-- Embedding of `std::string::substr(pos, len)`. -/
def substr (s : List Char) (pos len : Nat) : List Char :=
  (s.drop pos).take len

theorem strFind_eq_some_zero_iff (hay needle : List Char) :
    strFind hay needle = some 0 ↔ needle.isPrefixOf hay = true := by
  cases hay with
  | nil =>
    cases needle with
    | nil => simp [strFind, List.isPrefixOf]
    | cons c t => simp [strFind, List.isPrefixOf, List.isEmpty]
  | cons c t =>
    by_cases h : needle.isPrefixOf (c :: t) = true
    · simp [strFind, h]
    · simp only [Bool.not_eq_true] at h
      cases hf : strFind t needle with
      | none => simp [strFind, h, hf]
      | some k => simp [strFind, h, hf]

theorem strFind_append_of_head_notin (m rest needle : List Char)
    (hne : needle ≠ []) (h : ∀ c ∈ m, needle.head? ≠ some c) :
    strFind (m ++ rest) needle = (strFind rest needle).map (· + m.length) := by
  induction m with
  | nil =>
    cases hf : strFind rest needle <;> simp [hf]
  | cons c t ih =>
    have hc : needle.head? ≠ some c := h c (by simp)
    have hpre : needle.isPrefixOf (c :: (t ++ rest)) = false := by
      cases needle with
      | nil => exact absurd rfl hne
      | cons n ntail =>
        have : n ≠ c := by
          intro he
          exact hc (by simp [he])
        simp [List.isPrefixOf, this]
    have ih' := ih (fun d hd => h d (by simp [hd]))
    rw [List.cons_append]
    show (bif needle.isPrefixOf (c :: (t ++ rest)) then some 0
          else (strFind (t ++ rest) needle).map (· + 1)) = _
    rw [hpre, cond_false, ih']
    cases strFind rest needle with
    | none => simp
    | some v => simp [Nat.add_assoc]

theorem strFind_singleton_eq_none (hay : List Char) (c : Char) (h : c ∉ hay) :
    strFind hay [c] = none := by
  induction hay with
  | nil => simp [strFind]
  | cons d t ih =>
    have hdc : c ≠ d := by
      intro he
      exact h (by simp [he])
    have : ([c]).isPrefixOf (d :: t) = false := by
      simp [List.isPrefixOf, hdc]
    simp [strFind, this, ih (fun hm => h (by simp [hm]))]

theorem take_append_len (m rest : List Char) (k : Nat) :
    (m ++ rest).take (m.length + k) = m ++ rest.take k := by
  induction m with
  | nil => simp
  | cons c t ih => simp [List.take, Nat.succ_add, ih]

theorem drop_append_len (m rest : List Char) (k : Nat) :
    (m ++ rest).drop (m.length + k) = rest.drop k := by
  induction m with
  | nil => simp
  | cons c t ih => simp [List.drop, Nat.succ_add, ih]

/-- Modelled from the spec: `http_status.hpp` is not in the snapshot.
Status enum per section 6 of the spec ("Supported status codes"); the
`INVALID` sentinel appears in `ResponseResult::getError`. -/
inductive http.status.Code where
  | OK
  | BAD_REQUEST
  | FORBIDDEN
  | NOT_FOUND
  | UNSUPPORTED_MEDIA_TYPE
  | INTERNAL_SERVER_ERROR
  | NOT_IMPLEMENTED
  | INVALID
deriving DecidableEq, Repr

/-- Modelled from the spec: the numeric code of a status, as the string
produced by `http::status::getCode` (used as text in error bodies). -/
def http.status.getCode : http.status.Code → List Char
  | .OK => str "200"
  | .BAD_REQUEST => str "400"
  | .FORBIDDEN => str "403"
  | .NOT_FOUND => str "404"
  | .UNSUPPORTED_MEDIA_TYPE => str "415"
  | .INTERNAL_SERVER_ERROR => str "500"
  | .NOT_IMPLEMENTED => str "501"
  | .INVALID => str "0"

/-- Modelled from the spec: the exact reason phrases of section 6,
as produced by `http::status::toString`. -/
def http.status.toStr : http.status.Code → List Char
  | .OK => str "OK"
  | .BAD_REQUEST => str "Bad Request"
  | .FORBIDDEN => str "Forbidden"
  | .NOT_FOUND => str "Not Found"
  | .UNSUPPORTED_MEDIA_TYPE => str "Unsupported Media Type"
  | .INTERNAL_SERVER_ERROR => str "Internal Server Error"
  | .NOT_IMPLEMENTED => str "Not Implemented"
  | .INVALID => str ""

/-- The status codes the spec lists as supported (everything except the
`INVALID` sentinel, which never reaches the wire). -/
def http.status.Code.supported : http.status.Code → Bool
  | .INVALID => false
  | _ => true

/-- Modelled from the spec: `http_method.hpp` is not in the snapshot.
Section 3 fixes the enum to GET, POST and a sentinel INVALID. -/
inductive http.method.Method where
  | GET
  | POST
  | INVALID
deriving DecidableEq, Repr

/-- Modelled from the spec: unknown tokens map to the INVALID sentinel
(section 4.4, "unknown method token (surfaced as INVALID ...)"). -/
def http.method.fromString (s : List Char) : http.method.Method :=
  if s = str "GET" then .GET
  else if s = str "POST" then .POST
  else .INVALID

/-- Modelled from the spec: the stored string form of a method. -/
def http.method.toStr : http.method.Method → List Char
  | .GET => str "GET"
  | .POST => str "POST"
  | .INVALID => str "INVALID"

/-- Modelled from the spec: `isValid` accepts every value of the enum,
including the INVALID sentinel, because section 4.4 states that an
unknown method token is "surfaced as INVALID but not a parse failure"
and still drives the 501 path (section 3). -/
def http.method.isValid : http.method.Method → Bool :=
  fun _ => true

/-- Modelled from the spec: `http_mime.hpp` is not in the snapshot.
Media enum covering the authoritative MIME table of section 6 plus the
form type used by the POST builder and an INVALID sentinel. -/
inductive http.mime.Media where
  | TEXT_HTML
  | TEXT_CSS
  | TEXT_JS
  | TEXT_PLAIN
  | APP_JSON
  | IMG_PNG
  | IMG_JPEG
  | IMG_GIF
  | IMG_SVG
  | IMG_ICO
  | FONT_WOFF2
  | APP_FORM
  | INVALID
deriving DecidableEq, Repr

/-- Modelled from the spec: extension to media type lookup of section 6;
unknown extensions yield the INVALID sentinel (then 415). -/
def http.mime.fromExtension (e : List Char) : http.mime.Media :=
  if e = str ".html" ∨ e = str ".htm" then .TEXT_HTML
  else if e = str ".css" then .TEXT_CSS
  else if e = str ".js" then .TEXT_JS
  else if e = str ".txt" then .TEXT_PLAIN
  else if e = str ".json" then .APP_JSON
  else if e = str ".png" then .IMG_PNG
  else if e = str ".jpg" ∨ e = str ".jpeg" then .IMG_JPEG
  else if e = str ".gif" then .IMG_GIF
  else if e = str ".svg" then .IMG_SVG
  else if e = str ".ico" then .IMG_ICO
  else if e = str ".woff2" then .FONT_WOFF2
  else .INVALID

/-- Modelled from the spec: media type to Content-Type string. -/
def http.mime.toStr : http.mime.Media → List Char
  | .TEXT_HTML => str "text/html"
  | .TEXT_CSS => str "text/css"
  | .TEXT_JS => str "text/javascript"
  | .TEXT_PLAIN => str "text/plain"
  | .APP_JSON => str "application/json"
  | .IMG_PNG => str "image/png"
  | .IMG_JPEG => str "image/jpeg"
  | .IMG_GIF => str "image/gif"
  | .IMG_SVG => str "image/svg+xml"
  | .IMG_ICO => str "image/x-icon"
  | .FONT_WOFF2 => str "font/woff2"
  | .APP_FORM => str "application/x-www-form-urlencoded"
  | .INVALID => str ""

/-- Value of a hexadecimal digit, if any. -/
def hexVal (c : Char) : Option Nat :=
  if '0' ≤ c ∧ c ≤ '9' then some (c.toNat - 48)
  else if 'A' ≤ c ∧ c ≤ 'F' then some (c.toNat - 55)
  else if 'a' ≤ c ∧ c ≤ 'f' then some (c.toNat - 87)
  else none

/-- Modelled from the spec: `http_encoding.hpp` is not in the snapshot.
Percent-decoding per section 6: a valid `%HH` becomes the byte with hex
value HH, every other byte (including a lone `%` and `+`) passes
through literally. -/
def http.encoding.decode : List Char → List Char
  | [] => []
  | '%' :: h1 :: h2 :: t =>
    match hexVal h1, hexVal h2 with
    | some a, some b => Char.ofNat (a * 16 + b) :: http.encoding.decode t
    | _, _ => '%' :: http.encoding.decode (h1 :: h2 :: t)
  | c :: t => c :: http.encoding.decode t

/-- Case-insensitive equality of header names (the comparator of the
header map). -/
def lowerEq (a b : List Char) : Bool :=
  a.map Char.toLower == b.map Char.toLower

/-- Header collection of an HTTP message. -/
abbrev Headers : Type := List (List Char × List Char)

/-- Modelled from the spec: `http_message.hpp` is not in the snapshot.
Section 3 describes the header collection as a case-insensitive mapping
from name to raw value "preserving the first occurrence on duplicate",
so `setHeader` inserts only when no entry with the same
case-insensitive name exists. -/
def setHeader (hs : Headers) (k v : List Char) : Headers :=
  bif hs.any (fun p => lowerEq p.1 k) then hs
  else hs ++ [(k, v)]

/-- Modelled from the spec: case-insensitive header lookup
(`HttpMessage::getHeader`). -/
def getHeader (hs : Headers) (k : List Char) : Option (List Char) :=
  (hs.find? (fun p => lowerEq p.1 k)).map (fun p => p.2)

theorem setHeader_of_getHeader_some (hs : Headers) (k v x : List Char)
    (h : getHeader hs k = some v) : setHeader hs k x = hs := by
  unfold getHeader at h
  unfold setHeader
  cases hf : hs.find? (fun p => lowerEq p.1 k) with
  | none => rw [hf] at h; simp at h
  | some p =>
    have hall : hs.any (fun p => lowerEq p.1 k) = true := by
      rcases List.mem_of_find?_eq_some hf with hm
      exact List.any_eq_true.mpr ⟨p, hm, by
        have := List.find?_some hf
        exact this⟩
    rw [hall]
    rfl

theorem getHeader_setHeader_of_none (hs : Headers) (k v : List Char)
    (h : getHeader hs k = none) (hk : lowerEq k k = true) :
    getHeader (setHeader hs k v) k = some v := by
  unfold getHeader at h ⊢
  unfold setHeader
  cases hf : hs.find? (fun p => lowerEq p.1 k) with
  | some p => rw [hf] at h; simp at h
  | none =>
    have hany : hs.any (fun p => lowerEq p.1 k) = false := by
      rw [List.any_eq_false]
      intro p hp
      intro hcontra
      have := List.find?_eq_none.mp hf p hp
      exact this hcontra
    rw [hany]
    show ((hs ++ [(k, v)]).find? (fun p => lowerEq p.1 k)).map (fun p => p.2) = some v
    rw [List.find?_append, hf]
    simp [List.find?, hk]

theorem lowerEq_refl (k : List Char) : lowerEq k k = true := by
  simp [lowerEq]

/-- The parsed request object (`HttpRequest` plus the header/body state
inherited from `HttpMessage`). The method field stores the string form
of the converted enum, as `setMethod` does in the source. -/
structure HttpRequest where
  method : List Char := []
  uri : List Char := []
  version : List Char := []
  headers : Headers := []
  body : List Char := []
deriving DecidableEq, Repr

/-- Embedding of `std::stoul` on the argument string: optional leading
whitespace, an optional sign, then base-10 digits; no digits raises
`invalid_argument` and a value beyond `ULONG_MAX` raises
`out_of_range` (both modelled as `none`, which `parseBody` catches);
a negative value wraps modulo 2^64. -/
def stoulModel (s : List Char) : Option Nat :=
  match s.dropWhile Char.isWhitespace with
  | '-' :: r =>
    (stoulDigits r).map (fun v => (2 ^ 64 - v % 2 ^ 64) % 2 ^ 64)
  | '+' :: r => stoulDigits r
  | t => stoulDigits t
where
  stoulDigits (r : List Char) : Option Nat :=
    let ds := r.takeWhile Char.isDigit
    bif ds.isEmpty then none
    else
      let v : Nat := ds.foldl (fun a c => a * 10 + (c.toNat - 48)) 0
      bif decide (v < 2 ^ 64) then some v else none

/-- Embedding of `HttpRequest::parseStartLine`: split the line at its
first two spaces, convert the method token, and keep the stored string
forms (the source stores `toString(fromString(token))`). -/
def HttpRequest.parseStartLine (line : List Char) :
    Option (List Char × List Char × List Char) :=
  match strFind line (str " ") with
  | none => none
  | some methodEnd =>
    match strFindFrom line (str " ") (methodEnd + 1) with
    | none => none
    | some uriEnd =>
      let m := http.method.fromString (line.take methodEnd)
      bif http.method.isValid m then
        some (http.method.toStr m,
              substr line (methodEnd + 1) (uriEnd - methodEnd - 1),
              line.drop (uriEnd + 1))
      else none

/-- Embedding of the per-line body of `HttpRequest::parseHeaders`:
empty lines and lines without a colon record nothing; otherwise the
name is the text before the colon and the value is the text after it
with leading spaces stripped (`find_first_not_of(" ")`). -/
def HttpRequest.parseHeaderLine (hs : Headers) (header : List Char) : Headers :=
  bif header.isEmpty then hs
  else
    match strFind header (str ":") with
    | none => hs
    | some sep =>
      setHeader hs (header.take sep) ((header.drop (sep + 1)).dropWhile (fun c => c == ' '))

/-- The pieces the scanning loop of `HttpRequest::parseHeaders` visits:
the block cut at each leftmost CRLF, the final piece running to the end
of the block. When the block ends in a CRLF this produces one extra
empty piece, which `parseHeaderLine` ignores exactly as the loop ends
there. -/
def splitLinesCRLF : List Char → List (List Char)
  | [] => [[]]
  | [c] => [[c]]
  | c :: d :: t =>
    bif c == '\r' && d == '\n' then [] :: splitLinesCRLF t
    else
      match splitLinesCRLF (d :: t) with
      | [] => [[c]]
      | h :: r => (c :: h) :: r

/-- Embedding of `HttpRequest::parseHeaders`: process each CRLF-cut
piece of the header block in order. -/
def HttpRequest.parseHeaders (hs : Headers) (block : List Char) : Headers :=
  (splitLinesCRLF block).foldl HttpRequest.parseHeaderLine hs

/-- Embedding of `HttpRequest::parseBody`: with body bytes present and
a Content-Length of N, exactly N bytes form the body and fewer than N
available bytes is a failure; with no byte after the header block the
body is left empty without consulting Content-Length. -/
def HttpRequest.parseBody (hs : Headers) (raw : List Char) (bodyStart : Nat) :
    Option (List Char) :=
  if bodyStart < raw.length then
    match getHeader hs (str "Content-Length") with
    | some v =>
      match stoulModel v with
      | none => none
      | some contentLength =>
        if raw.length - bodyStart ≥ contentLength then
          some (substr raw bodyStart contentLength)
        else none
    | none => some []
  else some []

/-- The position just past the `\r\n\r\n` of the header block, i.e. the
`bodyStart` computed inside `HttpRequest::parse`. -/
def HttpRequest.bodyStartOf (raw : List Char) : Option Nat :=
  match strFind raw crlf with
  | none => none
  | some startLineEnd =>
    (strFindFrom raw (crlf ++ crlf) (startLineEnd + 2)).map (fun e => e + 4)

/-- Embedding of `HttpRequest::parse`: locate the start line and the
end of the header block, parse each part, and assemble the request;
`none` is the `false` return of the source. -/
def HttpRequest.parse (raw : List Char) : Option HttpRequest :=
  match strFind raw crlf with
  | none => none
  | some startLineEnd =>
    match HttpRequest.parseStartLine (raw.take startLineEnd) with
    | none => none
    | some (m, u, v) =>
      let headersStart := startLineEnd + 2
      match strFindFrom raw (crlf ++ crlf) headersStart with
      | none => none
      | some headersEnd =>
        let hs := HttpRequest.parseHeaders [] (substr raw headersStart (headersEnd - headersStart))
        match HttpRequest.parseBody hs raw (headersEnd + 4) with
        | none => none
        | some b =>
          some { method := m, uri := u, version := v, headers := hs, body := b }

/-- The response object (`HttpResponse` plus `HttpMessage` state).
The version defaults to the protocol version used in status lines. -/
structure HttpResponse where
  status : http.status.Code := .OK
  version : List Char := str "HTTP/1.1"
  headers : Headers := []
  body : List Char := []
  isStatic : Bool := false
deriving DecidableEq, Repr

/-- Decimal rendering of a byte count (`std::to_string`). -/
def natToStr (n : Nat) : List Char :=
  (Nat.repr n).data

/-- Embedding of `HttpResponse::getStatusLine`
(`HTTP/1.1 <code> <reason>`). -/
def HttpResponse.getStatusLine (r : HttpResponse) : List Char :=
  r.version ++ str " " ++ http.status.getCode r.status ++ str " " ++ http.status.toStr r.status

/-- Serialization of the header collection, one `Name: Value` CRLF line
per entry, in the iteration order of the collection. -/
def serializeHeaders (hs : Headers) : List Char :=
  hs.foldr (fun p acc => p.1 ++ str ": " ++ p.2 ++ crlf ++ acc) []

/-- Embedding of `ResponseComposer::composeResponseString`: status
line, header lines, then the blank CRLF. -/
def ResponseComposer.composeResponseString (r : HttpResponse) : List Char :=
  r.getStatusLine ++ crlf ++ serializeHeaders r.headers ++ crlf

/-- Embedding of `ResponseComposer::composeErrorMessage`: populates the
passed response (status, `Content-Type: text/html`, a matching
`Content-Length`, `Connection: close`, body `<code> <reason>`) and
returns the serialized string, which consists of the header lines, a
blank CRLF and the body, with no status line. -/
def ResponseComposer.composeErrorMessage (response : HttpResponse)
    (code : http.status.Code) : HttpResponse × List Char :=
  let body := http.status.getCode code ++ str " " ++ http.status.toStr code
  let r : HttpResponse :=
    { response with
      status := code,
      headers :=
        setHeader
          (setHeader
            (setHeader response.headers (str "Content-Type") (http.mime.toStr .TEXT_HTML))
            (str "Content-Length") (natToStr body.length))
          (str "Connection") (str "close"),
      body := body }
  (r, serializeHeaders r.headers ++ crlf ++ r.body)

/-- Pure model of the filesystem calls the resolver and GET builder
make: `realpath` (canonicalization, `none` on failure), the two `stat`
facts the code tests, the stat size, and a full read
(`FileResolver::readFile`, whose failures carry a status code). -/
structure FileSystem where
  realpath : List Char → Option (List Char)
  statExists : List Char → Bool
  statIsReg : List Char → Bool
  fileSize : List Char → Nat
  readFile : List Char → Except http.status.Code (List Char)

/-- The configuration values the resolver reads (`Config` singleton). -/
structure Config where
  rootFolder : List Char
  indexFile : List Char

/-- The target path string built by `FileResolver::sanitizePath` before
the second `realpath` call: root plus separator plus either the index
file (for an empty or `/` URI) or the URI with a leading `/` removed. -/
def FileResolver.targetPathOf (cfg : Config) (root uri : List Char) : List Char :=
  let sep : List Char := if root ≠ [] ∧ root.getLast? ≠ some '/' then ['/'] else []
  if uri = [] ∨ uri = str "/" then
    root ++ sep ++ cfg.indexFile
  else
    root ++ sep ++ (if uri.head? = some '/' then uri.drop 1 else uri)

/-- Embedding of `FileResolver::sanitizePath`: canonicalize the root
(500 on failure), build and canonicalize the target (404 on failure),
reject targets that do not start with the root text (403), then require
an existing regular file (404 / 403). -/
def FileResolver.sanitizePath (fs : FileSystem) (cfg : Config) (uri : List Char) :
    Except http.status.Code (List Char) :=
  match fs.realpath cfg.rootFolder with
  | none => .error .INTERNAL_SERVER_ERROR
  | some root =>
    match fs.realpath (FileResolver.targetPathOf cfg root uri) with
    | none => .error .NOT_FOUND
    | some fullPath =>
      if strFind fullPath root = some 0 then
        if fs.statExists fullPath then
          if fs.statIsReg fullPath then .ok fullPath
          else .error .FORBIDDEN
        else .error .NOT_FOUND
      else .error .FORBIDDEN

namespace ResponseBuilder

/-- The 128 KiB static-delivery threshold
(`ResponseBuilder::MAX_FILE_SIZE`). -/
def MAX_FILE_SIZE : Nat := 128 * 1024

end ResponseBuilder

/-- Index of the last occurrence of a character
(`std::string::find_last_of`). -/
def findLastOf (hay : List Char) (c : Char) : Option Nat :=
  (List.range hay.length).foldl
    (fun acc i => if hay.get? i = some c then some i else acc) none

/-- The extension the GET builder extracts: the suffix of the path from
its last dot (inclusive), or empty when the path has no dot. -/
def GetResponseBuilder.extOf (p : List Char) : List Char :=
  match findLastOf p '.' with
  | some dotPos => p.drop dotPos
  | none => []

/-- Embedding of `GetResponseBuilder::buildResponse`: resolve the URI,
re-check the file with `stat`, classify the extension, then either mark
the response static (size above the threshold: stat size as
Content-Length, the canonical path in `File-Path`, empty body) or read
the whole file into the body. -/
def GetResponseBuilder.buildResponse (fs : FileSystem) (cfg : Config)
    (req : HttpRequest) : Except http.status.Code HttpResponse :=
  match FileResolver.sanitizePath fs cfg req.uri with
  | .error c => .error c
  | .ok validPath =>
    if fs.statExists validPath = false ∨ fs.statIsReg validPath = false then
      .error .NOT_FOUND
    else
      let mime := http.mime.fromExtension (GetResponseBuilder.extOf validPath)
      if mime = .INVALID then .error .UNSUPPORTED_MEDIA_TYPE
      else
        let fileSize := fs.fileSize validPath
        if fileSize > ResponseBuilder.MAX_FILE_SIZE then
          .ok { status := .OK,
                headers :=
                  setHeader
                    (setHeader
                      (setHeader [] (str "Content-Type") (http.mime.toStr mime))
                      (str "Content-Length") (natToStr fileSize))
                    (str "File-Path") validPath,
                body := [],
                isStatic := true }
        else
          match fs.readFile validPath with
          | .error c => .error c
          | .ok content =>
            .ok { status := .OK,
                  headers :=
                    setHeader
                      (setHeader [] (str "Content-Type") (http.mime.toStr mime))
                      (str "Content-Length") (natToStr content.length),
                  body := content,
                  isStatic := false }

/-- Splitting at every ampersand (the raw cuts made by repeated
`std::getline(stream, token, the ampersand)` before its end-of-stream
rule is applied). -/
def splitOnAmp : List Char → List (List Char)
  | [] => [[]]
  | c :: t =>
    bif c == '&' then [] :: splitOnAmp t
    else
      match splitOnAmp t with
      | [] => [[c]]
      | h :: r => (c :: h) :: r

/-- The token sequence `std::getline` with delimiter ampersand yields:
the split pieces, except that a final empty piece is not produced
(after the last delimiter at end of stream, `getline` fails). -/
def PostResponseBuilder.getlineTokens (body : List Char) : List (List Char) :=
  let parts := splitOnAmp body
  match parts.getLast? with
  | some l => bif l.isEmpty then parts.dropLast else parts
  | none => parts

/-- The key/value pair the POST builder extracts from one token: with
no equals sign both key and value are empty; with a trailing equals
sign the value is empty; both sides are percent-decoded. -/
def PostResponseBuilder.formPair (kv : List Char) : List Char × List Char :=
  match strFind kv (str "=") with
  | none => ([], [])
  | some pos =>
    (http.encoding.decode (kv.take pos),
     if pos = kv.length - 1 then []
     else http.encoding.decode (kv.drop (pos + 1)))

/-- Overwriting insertion into the form-data map
(`std::unordered_map::operator[]` followed by assignment). -/
def updateAssoc (m : List (List Char × List Char)) (k v : List Char) :
    List (List Char × List Char) :=
  bif m.any (fun p => p.1 == k) then
    m.map (fun p => bif p.1 == k then (k, v) else p)
  else m ++ [(k, v)]

/-- Exact-key lookup in the form-data map. -/
def lookupAssoc (m : List (List Char × List Char)) (k : List Char) :
    Option (List Char) :=
  (m.find? (fun p => p.1 == k)).map (fun p => p.2)

/-- The form-data map the POST builder accumulates from a body. The
source iterates an `unordered_map` whose order is unspecified; the
model keeps first-insertion order, which fixes one admissible order. -/
def PostResponseBuilder.formDataOf (body : List Char) :
    List (List Char × List Char) :=
  (PostResponseBuilder.getlineTokens body).foldl
    (fun m kv => updateAssoc m (PostResponseBuilder.formPair kv).1 (PostResponseBuilder.formPair kv).2)
    []

/-- Embedding of `PostResponseBuilder::buildResponse`: require the base
Content-Type `application/x-www-form-urlencoded` (415) and the target
`/submit` (404), parse the form data, and answer 200 with an echo body
and `Connection: close`. -/
def PostResponseBuilder.buildResponse (req : HttpRequest) :
    Except http.status.Code HttpResponse :=
  let ct0 := (getHeader req.headers (str "Content-Type")).getD []
  let ct := match strFind ct0 (str ";") with
    | some s => ct0.take s
    | none => ct0
  if ct ≠ http.mime.toStr .APP_FORM then .error .UNSUPPORTED_MEDIA_TYPE
  else if req.uri ≠ str "/submit" then .error .NOT_FOUND
  else
    let fd := PostResponseBuilder.formDataOf req.body
    let respBody :=
      str "Received form data:\r\n"
        ++ fd.foldr (fun p acc => p.1 ++ str ": " ++ p.2 ++ crlf ++ acc) []
        ++ str "POST Successful!"
    .ok { status := .OK,
          headers :=
            setHeader
              (setHeader
                (setHeader [] (str "Content-Type") (http.mime.toStr .TEXT_HTML))
                (str "Content-Length") (natToStr respBody.length))
              (str "Connection") (str "close"),
          body := respBody,
          isStatic := false }

/-- The builder kinds the factory can produce. -/
inductive BuilderKind where
  | get
  | post
deriving DecidableEq, Repr

/-- Embedding of the registry set up in `HttpServer::setupDependencies`
plus `ResponseBuilderFactory::createBuilder`: GET and POST are
registered; every other method resolves to no builder. -/
def ResponseBuilderFactory.createBuilder : http.method.Method → Option BuilderKind
  | .GET => some .get
  | .POST => some .post
  | .INVALID => none

/-- The build step of `ConnectionHandler::handleRequest`: dispatch on
the re-converted method string and fall back to 501 when the factory
returns no builder. -/
def ConnectionHandler.dispatchBuild (fs : FileSystem) (cfg : Config)
    (req : HttpRequest) : Except http.status.Code HttpResponse :=
  match ResponseBuilderFactory.createBuilder (http.method.fromString req.method) with
  | some .get => GetResponseBuilder.buildResponse fs cfg req
  | some .post => PostResponseBuilder.buildResponse req
  | none => .error .NOT_IMPLEMENTED

/-- The keep-alive decision of `ConnectionHandler::handleRequest`: a
request Connection header equal to `keep-alive` (or absent) keeps the
session and stamps `keep-alive`; any other value stamps `close` and
ends it. -/
def ConnectionHandler.connectionUpdate (req : HttpRequest)
    (res : HttpResponse) : HttpResponse × Bool :=
  match getHeader req.headers (str "Connection") with
  | some v =>
    if v = str "keep-alive" then
      ({ res with headers := setHeader res.headers (str "Connection") (str "keep-alive") }, true)
    else
      ({ res with headers := setHeader res.headers (str "Connection") (str "close") }, false)
  | none =>
    ({ res with headers := setHeader res.headers (str "Connection") (str "keep-alive") }, true)

/-- The response `ConnectionHandler::handleRequest` hands to
`sendResponse` for a parsed request: the builder result, or the
composed error response on a builder error, with the Connection header
then stamped. -/
def ConnectionHandler.handleRequestResponse (fs : FileSystem) (cfg : Config)
    (req : HttpRequest) : HttpResponse :=
  let res :=
    match ConnectionHandler.dispatchBuild fs cfg req with
    | .ok r => r
    | .error c => (ResponseComposer.composeErrorMessage {} c).1
  (ConnectionHandler.connectionUpdate req res).1

/-- The bytes the first variant of
`ConnectionHandler::sendErrorResponse` writes: it lets the composer
populate a fresh response and then sends only `response.getBody()`. -/
def ConnectionHandler.sendErrorResponseWire (code : http.status.Code) : List Char :=
  ((ResponseComposer.composeErrorMessage {} code).1).body

namespace ConnectionHandler

/-- The per-connection request cap
(`ConnectionHandler::MAX_KEEP_ALIVE_REQUESTS`). -/
def MAX_KEEP_ALIVE_REQUESTS : Nat := 100

end ConnectionHandler

/-- The loop of `ConnectionHandler::processRequests`, driven by an
oracle trace: each element gives that iteration's `waitForData` result
and, when data arrived, the keep-alive flag `handleRequest` returned.
An exhausted trace behaves as a timeout. The result counts completed
request/response cycles. -/
def ConnectionHandler.processLoop (requestCount : Nat) :
    List (Bool × Bool) → Nat
  | [] => requestCount
  | (dataAvailable, keepAlive) :: rest =>
    if dataAvailable = false then requestCount
    else
      let requestCount' := requestCount + 1
      if requestCount' ≥ ConnectionHandler.MAX_KEEP_ALIVE_REQUESTS then requestCount'
      else if keepAlive = false then requestCount'
      else ConnectionHandler.processLoop requestCount' rest

/-- Embedding of `ConnectionHandler::processRequests`: run the loop
from a zero request count. -/
def ConnectionHandler.processRequests (trace : List (Bool × Bool)) : Nat :=
  ConnectionHandler.processLoop 0 trace

/-- One `::send` observation: the returned byte count (negative on
failure) and the `errno` value. EAGAIN and EWOULDBLOCK are 11. -/
abbrev OsSendResult : Type := Int × Nat

/-- Embedding of the retry loop of `Socket::send`, driven by a list of
OS call results. A negative return with errno 11 retries; any other
return, error returns included, is added to the unsigned running total
(wrapping modulo 2^64, as `size_t` does). `none` means the loop is
still running when the observations run out. -/
def Socket.sendLoop (len : Nat) : Nat → List OsSendResult → Option Nat
  | totalSent, [] => if totalSent ≥ len then some totalSent else none
  | totalSent, (bytesSent, e) :: rest =>
    if totalSent ≥ len then some totalSent
    else if bytesSent < 0 ∧ e = 11 then Socket.sendLoop len totalSent rest
    else Socket.sendLoop len (((totalSent : Int) + bytesSent).emod (2 ^ 64)).toNat rest

/-- Embedding of `Socket::send` on a buffer of `len` bytes. -/
def Socket.send (len : Nat) (os : List OsSendResult) : Option Nat :=
  Socket.sendLoop len 0 os

/-- A filesystem in which a symlink inside the document root resolves
to a sibling directory whose name extends the root's name: `realpath`
maps the root `./www` to `/srv/www` and the target `/srv/www/ev` to
`/srv/wwwevil/secret`, an existing regular file. -/
def fsTraversal : FileSystem where
  realpath := fun p =>
    if p = str "./www" then some (str "/srv/www")
    else if p = str "/srv/www/ev" then some (str "/srv/wwwevil/secret")
    else none
  statExists := fun p => p == str "/srv/wwwevil/secret"
  statIsReg := fun p => p == str "/srv/wwwevil/secret"
  fileSize := fun _ => 0
  readFile := fun _ => .error .NOT_FOUND

/-- The default configuration: document root `./www`, index file
`index.html`. -/
def cfgExample : Config where
  rootFolder := str "./www"
  indexFile := str "index.html"

/-- A benign filesystem holding one small regular file
`/srv/www/a.html` with contents `abc`. -/
def fsExample : FileSystem where
  realpath := fun p =>
    if p = str "./www" then some (str "/srv/www")
    else if p = str "/srv/www/a.html" then some (str "/srv/www/a.html")
    else none
  statExists := fun p => p == str "/srv/www/a.html"
  statIsReg := fun p => p == str "/srv/www/a.html"
  fileSize := fun _ => 3
  readFile := fun p =>
    if p = str "/srv/www/a.html" then .ok (str "abc") else .error .NOT_FOUND

/-- The GET request with a capitalized Keep-Alive Connection value used
as the C5 counterexample input. -/
def reqKeepAliveCaps : HttpRequest where
  method := str "GET"
  uri := str "/a.html"
  headers := [(str "Connection", str "Keep-Alive")]

/-- The claim's notion of containment: the root is a prefix of the path
at a directory boundary (the path is the root itself or continues with
a path separator right after it). -/
def atDirBoundary (root p : List Char) : Bool :=
  p == root || (root ++ ['/']).isPrefixOf p

theorem processLoop_le_cap (trace : List (Bool × Bool)) :
    ∀ c : Nat, c ≤ 99 → ConnectionHandler.processLoop c trace ≤ 100 := by
  induction trace with
  | nil =>
    intro c hc
    simp only [ConnectionHandler.processLoop]
    omega
  | cons p rest ih =>
    intro c hc
    obtain ⟨d, k⟩ := p
    by_cases hd : d = false
    · simp only [ConnectionHandler.processLoop, hd, if_pos]
      omega
    · by_cases hm : c + 1 ≥ ConnectionHandler.MAX_KEEP_ALIVE_REQUESTS
      · simp only [ConnectionHandler.processLoop, if_neg hd, if_pos hm]
        have : ConnectionHandler.MAX_KEEP_ALIVE_REQUESTS = 100 := rfl
        omega
      · by_cases hk : k = false
        · simp only [ConnectionHandler.processLoop, if_neg hd, if_neg hm, if_pos hk]
          have : ConnectionHandler.MAX_KEEP_ALIVE_REQUESTS = 100 := rfl
          omega
        · simp only [ConnectionHandler.processLoop, if_neg hd, if_neg hm, if_neg hk]
          have hmax : ConnectionHandler.MAX_KEEP_ALIVE_REQUESTS = 100 := rfl
          exact ih (c + 1) (by omega)

/-- C8: for every connection trace, the number of completed
request/response cycles `ConnectionHandler::processRequests` performs
before closing the connection is at most 100
(`MAX_KEEP_ALIVE_REQUESTS`). -/
theorem processRequests_cycles_at_most_100 (trace : List (Bool × Bool)) :
    ConnectionHandler.processRequests trace ≤ 100 :=
  processLoop_le_cap trace 0 (by omega)

/-- C9: evaluating `Socket::send` at a failing input. On a one-byte
buffer, a `::send` failure with errno 32 (EPIPE, not would-block) does
not surface as an error carrying the OS code: the negative return is
added to the unsigned running total, which wraps to 2^64 - 1, and the
function returns normally with that count. The second conjunct shows
the would-block (errno 11) retry path the claim describes. -/
theorem socket_send_error_not_surfaced :
    Socket.send 1 [(-1, 32)] = some (2 ^ 64 - 1)
    ∧ Socket.send 1 [(-1, 11), (1, 0)] = some 1 := by
  exact ⟨by decide, by decide⟩

/-- C1 counterexample: with a symlinked entry resolving into the
sibling directory `/srv/wwwevil`, the resolver succeeds although its
output does not have the canonicalized root `/srv/www` as a prefix at a
directory boundary — the target lies outside the root yet the resolver
returns the path instead of 403. -/
theorem sanitizePath_escapes_root_boundary :
    FileResolver.sanitizePath fsTraversal cfgExample (str "/ev")
      = .ok (str "/srv/wwwevil/secret")
    ∧ fsTraversal.realpath cfgExample.rootFolder = some (str "/srv/www")
    ∧ atDirBoundary (str "/srv/www") (str "/srv/wwwevil/secret") = false :=
  ⟨rfl, rfl, rfl⟩

/-- C1 amended: the containment the code actually enforces is a plain
text-prefix check. A successful resolution is a path with the
canonicalized root as a string prefix, and when the canonicalized
target lacks that prefix the resolver answers 403 Forbidden. -/
theorem sanitizePath_plain_root_containment (fs : FileSystem) (cfg : Config)
    (uri : List Char) :
    (∀ p, FileResolver.sanitizePath fs cfg uri = .ok p →
      ∃ r, fs.realpath cfg.rootFolder = some r ∧ r.isPrefixOf p = true)
    ∧ (∀ r t, fs.realpath cfg.rootFolder = some r →
        fs.realpath (FileResolver.targetPathOf cfg r uri) = some t →
        r.isPrefixOf t = false →
        FileResolver.sanitizePath fs cfg uri = .error .FORBIDDEN) := by
  constructor
  · intro p h
    cases hr : fs.realpath cfg.rootFolder with
    | none =>
      simp only [FileResolver.sanitizePath, hr] at h
      exact Except.noConfusion h
    | some root =>
      cases ht : fs.realpath (FileResolver.targetPathOf cfg root uri) with
      | none =>
        simp only [FileResolver.sanitizePath, hr, ht] at h
        exact Except.noConfusion h
      | some fullPath =>
        simp only [FileResolver.sanitizePath, hr, ht] at h
        by_cases hp : strFind fullPath root = some 0
        · rw [if_pos hp] at h
          refine ⟨root, rfl, ?_⟩
          have hpre := (strFind_eq_some_zero_iff fullPath root).mp hp
          by_cases he : fs.statExists fullPath = true
          · rw [if_pos he] at h
            by_cases hg : fs.statIsReg fullPath = true
            · rw [if_pos hg] at h
              have hfp : fullPath = p := by
                injection h
              rw [← hfp]
              exact hpre
            · rw [if_neg hg] at h
              exact absurd h (by simp)
          · rw [if_neg he] at h
            exact absurd h (by simp)
        · rw [if_neg hp] at h
          exact absurd h (by simp)
  · intro r t hr ht hnp
    have hns : ¬ strFind t r = some 0 := by
      rw [strFind_eq_some_zero_iff, hnp]
      simp
    simp only [FileResolver.sanitizePath, hr, ht, if_neg hns]

/-- C1 witness: the amended containment theorem applied at the
traversal filesystem, so its hypotheses are satisfiable. -/
theorem sanitizePath_plain_root_containment_witness :
    ∃ r, fsTraversal.realpath cfgExample.rootFolder = some r
      ∧ r.isPrefixOf (str "/srv/wwwevil/secret") = true :=
  (sanitizePath_plain_root_containment fsTraversal cfgExample (str "/ev")).1
    (str "/srv/wwwevil/secret") rfl

/-- C2 counterexample: the error response surfaced on the wire for
`400 Bad Request` does not consist of the serialized status line
followed by headers and body. The composer's returned string carries no
status line, and the handler's `sendErrorResponse` transmits only the
body, so the wire bytes are exactly `400 Bad Request`. -/
theorem errorResponse_wire_lacks_status_line :
    ConnectionHandler.sendErrorResponseWire .BAD_REQUEST = str "400 Bad Request"
    ∧ (str "HTTP/1.1 400 Bad Request\r\n").isPrefixOf
        (ConnectionHandler.sendErrorResponseWire .BAD_REQUEST) = false
    ∧ (str "HTTP/1.1").isPrefixOf
        (ResponseComposer.composeErrorMessage {} .BAD_REQUEST).2 = false :=
  ⟨rfl, rfl, rfl⟩

/-- C2 amended: for every supported status code the composer populates
the response with `Content-Type: text/html`, `Connection: close`, a
`Content-Length` matching the body, and the body `<code> <reason>` —
but what `sendErrorResponse` puts on the wire is only that body, with
no status line (nor headers) in front of it. -/
theorem composeError_headers_and_body (code : http.status.Code)
    (h : code.supported = true) :
    getHeader (ResponseComposer.composeErrorMessage {} code).1.headers
        (str "Content-Type") = some (str "text/html")
    ∧ getHeader (ResponseComposer.composeErrorMessage {} code).1.headers
        (str "Connection") = some (str "close")
    ∧ getHeader (ResponseComposer.composeErrorMessage {} code).1.headers
        (str "Content-Length")
        = some (natToStr (ResponseComposer.composeErrorMessage {} code).1.body.length)
    ∧ (ResponseComposer.composeErrorMessage {} code).1.body
        = http.status.getCode code ++ str " " ++ http.status.toStr code
    ∧ ConnectionHandler.sendErrorResponseWire code
        = (ResponseComposer.composeErrorMessage {} code).1.body
    ∧ (str "HTTP/1.1").isPrefixOf
        (ConnectionHandler.sendErrorResponseWire code) = false := by
  revert h
  cases code <;> decide

/-- C2 witness: the amended composer theorem applied at 404. -/
theorem composeError_headers_and_body_witness :
    getHeader (ResponseComposer.composeErrorMessage {} .NOT_FOUND).1.headers
        (str "Content-Type") = some (str "text/html") :=
  (composeError_headers_and_body .NOT_FOUND (by decide)).1

/-- C4 counterexample: a parseable request whose Content-Length is 5
but whose byte sequence ends right after the header block. The parser
accepts it with an empty body (neither equal to 5 nor failing with an
incomplete-body signal), because `parseBody` only consults
Content-Length when at least one body byte is present. -/
theorem parse_content_length_ignored_without_body_bytes :
    HttpRequest.parse (str "POST /submit HTTP/1.1\r\nContent-Length: 5\r\n\r\n")
      = some { method := str "POST", uri := str "/submit",
               version := str "HTTP/1.1",
               headers := [(str "Content-Length", str "5")], body := [] }
    ∧ stoulModel (str "5") = some 5
    ∧ ([] : List Char).length ≠ 5 :=
  ⟨rfl, by decide, by decide⟩

/-- C6 counterexample: the POST form parser maps a pair without an
equals sign to the empty key, not to the pair text: the body `flag`
yields the single entry with empty key and empty value, and no entry
under the key `flag`. -/
theorem formData_missing_equals_key_not_pair_text :
    PostResponseBuilder.formDataOf (str "flag") = [([], [])]
    ∧ lookupAssoc (PostResponseBuilder.formDataOf (str "flag")) (str "flag")
        = none :=
  ⟨rfl, rfl⟩

theorem splitOnAmp_no_amp (s : List Char) (h : '&' ∉ s) : splitOnAmp s = [s] := by
  induction s with
  | nil => rfl
  | cons c t ih =>
    have hc : (c == '&') = false := by
      rw [beq_eq_false_iff_ne]
      intro he
      exact h (by simp [he])
    rw [show splitOnAmp (c :: t)
          = (bif c == '&' then [] :: splitOnAmp t
             else match splitOnAmp t with
               | [] => [[c]]
               | h :: r => (c :: h) :: r) from rfl,
        hc, cond_false, ih (fun hm => h (by simp [hm]))]

/-- C6 amended: a POST body pair that contains no equals sign is
recorded with the empty string as key and the empty string as value
(the pair text is discarded), matching the source's npos branch. -/
theorem formData_missing_equals_both_empty (s : List Char)
    (hne : s ≠ []) (hamp : '&' ∉ s) (heq : '=' ∉ s) :
    PostResponseBuilder.formDataOf s = [([], [])] := by
  have hsplit := splitOnAmp_no_amp s hamp
  have hfind : strFind s (str "=") = none :=
    strFind_singleton_eq_none s '=' heq
  have hpair : PostResponseBuilder.formPair s = ([], []) := by
    simp only [PostResponseBuilder.formPair, hfind]
  have hie : s.isEmpty = false := by
    cases s with
    | nil => exact absurd rfl hne
    | cons a b => rfl
  have hlast : ([s] : List (List Char)).getLast? = some s := rfl
  simp only [PostResponseBuilder.formDataOf, PostResponseBuilder.getlineTokens,
    hsplit, hlast, hie, cond_false, List.foldl, hpair]
  rfl

/-- C6 witness: the amended pair rule applied at the body `flag`. -/
theorem formData_missing_equals_both_empty_witness :
    PostResponseBuilder.formDataOf (str "flag") = [([], [])] :=
  formData_missing_equals_both_empty (str "flag") (by decide) (by decide) (by decide)

/-- C4 amended: the Content-Length invariant holds whenever at least
one byte beyond the header block is available. If the parser accepts
the input, a Content-Length header parses to N, and the body start lies
inside the input, then at least N body bytes were available and the
parsed body has length exactly N (so fewer than N available bytes can
only end in a parse failure); with zero available body bytes the parser
instead accepts with an empty body regardless of Content-Length. -/
theorem parse_content_length_body_exact (raw : List Char) (req : HttpRequest)
    (v : List Char) (n bs : Nat)
    (hp : HttpRequest.parse raw = some req)
    (hv : getHeader req.headers (str "Content-Length") = some v)
    (hn : stoulModel v = some n)
    (hb : HttpRequest.bodyStartOf raw = some bs)
    (hlt : bs < raw.length) :
    n ≤ raw.length - bs ∧ req.body.length = n := by
  cases hsl : strFind raw crlf with
  | none =>
    simp only [HttpRequest.parse, hsl] at hp
    exact Option.noConfusion hp
  | some sl =>
    cases hst : HttpRequest.parseStartLine (raw.take sl) with
    | none =>
      simp only [HttpRequest.parse, hsl, hst] at hp
      exact Option.noConfusion hp
    | some muv =>
      obtain ⟨m, u, ver⟩ := muv
      cases hhe : strFindFrom raw (crlf ++ crlf) (sl + 2) with
      | none =>
        simp only [HttpRequest.parse, hsl, hst, hhe] at hp
        exact Option.noConfusion hp
      | some he =>
        have hbs : bs = he + 4 := by
          simp only [HttpRequest.bodyStartOf, hsl, hhe, Option.map] at hb
          exact (Option.some.injEq _ _).mp hb.symm
        simp only [HttpRequest.parse, hsl, hst, hhe] at hp
        generalize hHS : HttpRequest.parseHeaders [] (substr raw (sl + 2) (he - (sl + 2))) = HS at hp
        cases hpb : HttpRequest.parseBody HS raw (he + 4) with
        | none => rw [hpb] at hp; exact Option.noConfusion hp
        | some b =>
          rw [hpb] at hp
          have hre : ({ method := m, uri := u, version := ver,
                        headers := HS, body := b } : HttpRequest) = req := by
            injection hp
          subst hre
          have hv' : getHeader HS (str "Content-Length") = some v := hv
          rw [HttpRequest.parseBody, if_pos (by omega : he + 4 < raw.length)] at hpb
          simp only [hv', hn] at hpb
          by_cases hav : raw.length - (he + 4) ≥ n
          · rw [if_pos hav] at hpb
            have hbv : substr raw (he + 4) n = b := by
              injection hpb
            constructor
            · omega
            · show b.length = n
              rw [← hbv]
              simp only [substr, List.length_take, List.length_drop]
              omega
          · rw [if_neg hav] at hpb
            exact Option.noConfusion hpb

/-- C4 witness: the amended invariant applied to a POST with
Content-Length 2 and exactly two body bytes present. -/
theorem parse_content_length_body_exact_witness :
    2 ≤ (str "POST /submit HTTP/1.1\r\nContent-Length: 2\r\n\r\nab").length - 44
    ∧ ({ method := str "POST", uri := str "/submit", version := str "HTTP/1.1",
         headers := [(str "Content-Length", str "2")],
         body := str "ab" } : HttpRequest).body.length = 2 :=
  parse_content_length_body_exact
    (str "POST /submit HTTP/1.1\r\nContent-Length: 2\r\n\r\nab")
    { method := str "POST", uri := str "/submit", version := str "HTTP/1.1",
      headers := [(str "Content-Length", str "2")], body := str "ab" }
    (str "2") 2 44 rfl rfl (by decide) rfl (by decide)

/-- C3: a well-formed start line whose method token is unknown is not a
parse failure: the request parses with method INVALID, the builder
factory resolves no builder for it, and the handler's response is
501 Not Implemented (not 400). Proved for every space-free, CR-free
token other than GET and POST, on a request with one Host header. -/
theorem parse_unknown_method_drives_501 (m : List Char) (fs : FileSystem)
    (cfg : Config)
    (hsp : ' ' ∉ m) (hcr : '\r' ∉ m)
    (hG : m ≠ str "GET") (hP : m ≠ str "POST") :
    HttpRequest.parse (m ++ str " / HTTP/1.1\r\nHost: x\r\n\r\n")
      = some { method := str "INVALID", uri := str "/",
               version := str "HTTP/1.1",
               headers := [(str "Host", str "x")], body := [] }
    ∧ ConnectionHandler.dispatchBuild fs cfg
        { method := str "INVALID", uri := str "/", version := str "HTTP/1.1",
          headers := [(str "Host", str "x")], body := [] }
        = .error .NOT_IMPLEMENTED
    ∧ (ConnectionHandler.handleRequestResponse fs cfg
        { method := str "INVALID", uri := str "/", version := str "HTTP/1.1",
          headers := [(str "Host", str "x")], body := [] }).status
        = .NOT_IMPLEMENTED := by
  refine ⟨?_, rfl, rfl⟩
  have hheadcr : ∀ c ∈ m, crlf.head? ≠ some c := by
    intro c hc he
    have h3 : (some '\r' : Option Char) = some c := he
    have h2 : '\r' = c := by injection h3
    rw [← h2] at hc
    exact hcr hc
  have hheadcr2 : ∀ c ∈ m, (crlf ++ crlf).head? ≠ some c := by
    intro c hc he
    have h3 : (some '\r' : Option Char) = some c := he
    have h2 : '\r' = c := by injection h3
    rw [← h2] at hc
    exact hcr hc
  have hheadsp : ∀ c ∈ m, (str " ").head? ≠ some c := by
    intro c hc he
    have h3 : (some ' ' : Option Char) = some c := he
    have h2 : ' ' = c := by injection h3
    rw [← h2] at hc
    exact hsp hc
  have hf1 : strFind (m ++ str " / HTTP/1.1\r\nHost: x\r\n\r\n") crlf
      = some (11 + m.length) := by
    rw [strFind_append_of_head_notin m _ crlf (by decide) hheadcr]
    rfl
  have ht1 : (m ++ str " / HTTP/1.1\r\nHost: x\r\n\r\n").take (11 + m.length)
      = m ++ str " / HTTP/1.1" := by
    rw [show 11 + m.length = m.length + 11 from by omega, take_append_len]
    rfl
  have hfsp : strFind (m ++ str " / HTTP/1.1") (str " ") = some m.length := by
    rw [strFind_append_of_head_notin m _ _ (by decide) hheadsp]
    have hx : strFind (str " / HTTP/1.1") (str " ") = some 0 := rfl
    rw [hx]
    simp
  have hff : strFindFrom (m ++ str " / HTTP/1.1") (str " ") (m.length + 1)
      = some (m.length + 2) := by
    unfold strFindFrom
    rw [drop_append_len]
    have hx : strFind ((str " / HTTP/1.1").drop 1) (str " ") = some 1 := rfl
    rw [hx]
    simp only [Option.map_some', Option.some.injEq]
    omega
  have hmtake : (m ++ str " / HTTP/1.1").take m.length = m := List.take_left m _
  have hps : HttpRequest.parseStartLine (m ++ str " / HTTP/1.1")
      = some (str "INVALID", str "/", str "HTTP/1.1") := by
    simp only [HttpRequest.parseStartLine, hfsp, hff, hmtake,
      http.method.fromString, if_neg hG, if_neg hP]
    have hu : substr (m ++ str " / HTTP/1.1") (m.length + 1)
        (m.length + 2 - m.length - 1) = str "/" := by
      unfold substr
      rw [show m.length + 2 - m.length - 1 = 1 from by omega, drop_append_len]
      rfl
    have hv : (m ++ str " / HTTP/1.1").drop (m.length + 2 + 1)
        = str "HTTP/1.1" := by
      rw [show m.length + 2 + 1 = m.length + 3 from by omega, drop_append_len]
      rfl
    rw [hu, hv]
    rfl
  have hf2 : strFindFrom (m ++ str " / HTTP/1.1\r\nHost: x\r\n\r\n")
      (crlf ++ crlf) (11 + m.length + 2) = some (7 + (m.length + 13)) := by
    unfold strFindFrom
    rw [show 11 + m.length + 2 = m.length + 13 from by omega, drop_append_len]
    have hx : strFind ((str " / HTTP/1.1\r\nHost: x\r\n\r\n").drop 13)
        (crlf ++ crlf) = some 7 := rfl
    rw [hx]
    rfl
  have hblock : substr (m ++ str " / HTTP/1.1\r\nHost: x\r\n\r\n")
      (11 + m.length + 2) (7 + (m.length + 13) - (11 + m.length + 2))
      = str "Host: x" := by
    unfold substr
    rw [show 7 + (m.length + 13) - (11 + m.length + 2) = 7 from by omega,
        show 11 + m.length + 2 = m.length + 13 from by omega, drop_append_len]
    rfl
  have hlen : (m ++ str " / HTTP/1.1\r\nHost: x\r\n\r\n").length
      = m.length + 24 := by
    simp [List.length_append]
    rfl
  have hbody : HttpRequest.parseBody
      (HttpRequest.parseHeaders [] (str "Host: x"))
      (m ++ str " / HTTP/1.1\r\nHost: x\r\n\r\n") (7 + (m.length + 13) + 4)
      = some [] := by
    rw [HttpRequest.parseBody, if_neg]
    rw [hlen]
    omega
  simp only [HttpRequest.parse, hf1, ht1, hps, hf2, hblock, hbody]
  rfl

/-- C3 witness: the 501 path applied at the unknown token `PUT`. -/
theorem parse_unknown_method_drives_501_witness :
    HttpRequest.parse (str "PUT" ++ str " / HTTP/1.1\r\nHost: x\r\n\r\n")
      = some { method := str "INVALID", uri := str "/",
               version := str "HTTP/1.1",
               headers := [(str "Host", str "x")], body := [] } :=
  (parse_unknown_method_drives_501 (str "PUT") fsExample cfgExample
    (by decide) (by decide) (by decide) (by decide)).1

theorem splitLinesCRLF_skip (L rest : List Char) (hcr : '\r' ∉ L) :
    splitLinesCRLF (L ++ '\r' :: '\n' :: rest) = L :: splitLinesCRLF rest := by
  induction L with
  | nil => rfl
  | cons c t ih =>
    have hc : (c == '\r') = false := by
      rw [beq_eq_false_iff_ne]
      intro he
      exact hcr (by simp [he])
    have ih' := ih (fun hm => hcr (by simp [hm]))
    cases t with
    | nil =>
      show splitLinesCRLF (c :: '\r' :: '\n' :: rest) = [c] :: splitLinesCRLF rest
      rw [show splitLinesCRLF (c :: '\r' :: '\n' :: rest)
            = (bif c == '\r' && '\r' == '\n' then [] :: splitLinesCRLF ('\n' :: rest)
               else match splitLinesCRLF ('\r' :: '\n' :: rest) with
                 | [] => [[c]]
                 | h :: r => (c :: h) :: r) from rfl,
          hc]
      simp only [Bool.false_and, cond_false]
      rw [show splitLinesCRLF ('\r' :: '\n' :: rest)
            = [] :: splitLinesCRLF rest from rfl]
    | cons d t2 =>
      show splitLinesCRLF (c :: d :: (t2 ++ '\r' :: '\n' :: rest))
          = (c :: d :: t2) :: splitLinesCRLF rest
      rw [show splitLinesCRLF (c :: d :: (t2 ++ '\r' :: '\n' :: rest))
            = (bif c == '\r' && d == '\n' then
                 [] :: splitLinesCRLF (t2 ++ '\r' :: '\n' :: rest)
               else match splitLinesCRLF (d :: (t2 ++ '\r' :: '\n' :: rest)) with
                 | [] => [[c]]
                 | h :: r => (c :: h) :: r) from rfl,
          hc]
      simp only [Bool.false_and, cond_false]
      rw [show d :: (t2 ++ '\r' :: '\n' :: rest)
            = (d :: t2) ++ '\r' :: '\n' :: rest from rfl,
          ih']

theorem parseHeaderLine_no_colon (hs : Headers) (L : List Char)
    (h : ':' ∉ L) : HttpRequest.parseHeaderLine hs L = hs := by
  cases L with
  | nil => rfl
  | cons c t =>
    have hfind : strFind (c :: t) (str ":") = none :=
      strFind_singleton_eq_none (c :: t) ':' h
    unfold HttpRequest.parseHeaderLine
    rw [hfind]
    rfl

theorem isPrefixOf_append_mono (n l b : List Char)
    (h : n.isPrefixOf l = true) : n.isPrefixOf (l ++ b) = true := by
  induction n generalizing l with
  | nil => simp [List.isPrefixOf]
  | cons x xs ih =>
    cases l with
    | nil => simp [List.isPrefixOf] at h
    | cons y ys =>
      simp only [List.isPrefixOf, Bool.and_eq_true] at h ⊢
      exact ⟨h.1, ih ys h.2⟩

theorem isPrefixOf_of_append_of_le (n l b : List Char)
    (h : n.isPrefixOf (l ++ b) = true) (hle : n.length ≤ l.length) :
    n.isPrefixOf l = true := by
  induction n generalizing l with
  | nil => simp [List.isPrefixOf]
  | cons x xs ih =>
    cases l with
    | nil => simp at hle
    | cons y ys =>
      simp only [List.cons_append, List.isPrefixOf, Bool.and_eq_true] at h ⊢
      simp only [List.length_cons] at hle
      exact ⟨h.1, ih ys h.2 (by omega)⟩

theorem isPrefixOf_length_le (n l : List Char)
    (h : n.isPrefixOf l = true) : n.length ≤ l.length := by
  induction n generalizing l with
  | nil => simp
  | cons x xs ih =>
    cases l with
    | nil => simp [List.isPrefixOf] at h
    | cons y ys =>
      simp only [List.isPrefixOf, Bool.and_eq_true] at h
      simp only [List.length_cons]
      exact Nat.succ_le_succ (ih ys h.2)

theorem strFind_append_inner (a b needle : List Char) (i : Nat)
    (h1 : strFind a needle = some i) (h2 : i + needle.length ≤ a.length) :
    strFind (a ++ b) needle = some i := by
  induction a generalizing i with
  | nil =>
    cases needle with
    | nil =>
      simp only [strFind, List.isEmpty, cond_true] at h1
      cases h1
      cases b with
      | nil => rfl
      | cons c t => rfl
    | cons nh nt => simp [strFind, List.isEmpty] at h1
  | cons c t ih =>
    by_cases hpre : needle.isPrefixOf (c :: t) = true
    · have h0 : i = 0 := by
        rw [show strFind (c :: t) needle
              = (bif needle.isPrefixOf (c :: t) then some 0
                 else (strFind t needle).map (fun x => x + 1)) from rfl,
            hpre, cond_true] at h1
        injection h1 with h1
        exact h1.symm
      rw [show (c :: t) ++ b = c :: (t ++ b) from rfl]
      have hpre2 : needle.isPrefixOf (c :: (t ++ b)) = true := by
        have := isPrefixOf_append_mono needle (c :: t) b hpre
        rw [show (c :: t) ++ b = c :: (t ++ b) from rfl] at this
        exact this
      rw [show strFind (c :: (t ++ b)) needle
            = (bif needle.isPrefixOf (c :: (t ++ b)) then some 0
               else (strFind (t ++ b) needle).map (fun x => x + 1)) from rfl,
          hpre2, cond_true, h0]
    · have hpre' : needle.isPrefixOf (c :: t) = false := by
        cases hx : needle.isPrefixOf (c :: t) with
        | true => exact absurd hx hpre
        | false => rfl
      rw [show strFind (c :: t) needle
            = (bif needle.isPrefixOf (c :: t) then some 0
               else (strFind t needle).map (fun x => x + 1)) from rfl,
          hpre', cond_false] at h1
      cases hj : strFind t needle with
      | none => rw [hj] at h1; simp at h1
      | some j =>
        rw [hj] at h1
        simp only [Option.map_some', Option.some.injEq] at h1
        have hji : j + 1 = i := h1
        have hfit : j + needle.length ≤ t.length := by
          simp only [List.length_cons] at h2
          omega
        have hpre2 : needle.isPrefixOf (c :: (t ++ b)) = false := by
          cases hx : needle.isPrefixOf (c :: (t ++ b)) with
          | false => rfl
          | true =>
            have hlen2 : needle.length ≤ (c :: t).length := by
              simp only [List.length_cons]
              omega
            have := isPrefixOf_of_append_of_le needle (c :: t) b
              (by rw [show (c :: t) ++ b = c :: (t ++ b) from rfl]; exact hx)
              hlen2
            rw [this] at hpre'
            exact Bool.noConfusion hpre'
        rw [show (c :: t) ++ b = c :: (t ++ b) from rfl,
            show strFind (c :: (t ++ b)) needle
              = (bif needle.isPrefixOf (c :: (t ++ b)) then some 0
                 else (strFind (t ++ b) needle).map (fun x => x + 1)) from rfl,
            hpre2, cond_false, ih j hj hfit]
        simp only [Option.map_some', Option.some.injEq]
        exact hji

/-- C10: a header line with no colon is silently skipped: for every
CR-free, colon-free line text, a request carrying that line in its
header block parses successfully and records exactly the headers of the
well-formed lines around it. -/
theorem parse_skips_header_line_without_colon (lineA : List Char)
    (hcr : '\r' ∉ lineA) (hcol : ':' ∉ lineA) :
    HttpRequest.parse
        (str "GET / HTTP/1.1\r\n" ++ (lineA ++ str "\r\nHost: x\r\n\r\n"))
      = some { method := str "GET", uri := str "/",
               version := str "HTTP/1.1",
               headers := [(str "Host", str "x")], body := [] } := by
  have hhead : ∀ c ∈ lineA, (crlf ++ crlf).head? ≠ some c := by
    intro c hc he
    have h3 : (some '\r' : Option Char) = some c := he
    have h2 : '\r' = c := by injection h3
    rw [← h2] at hc
    exact hcr hc
  have hf1 : strFind
      (str "GET / HTTP/1.1\r\n" ++ (lineA ++ str "\r\nHost: x\r\n\r\n")) crlf
      = some 14 :=
    strFind_append_inner _ _ crlf 14 (by decide) (by decide)
  have hdrop : (str "GET / HTTP/1.1\r\n"
      ++ (lineA ++ str "\r\nHost: x\r\n\r\n")).drop 16
      = lineA ++ str "\r\nHost: x\r\n\r\n" := rfl
  have hf2 : strFindFrom
      (str "GET / HTTP/1.1\r\n" ++ (lineA ++ str "\r\nHost: x\r\n\r\n"))
      (crlf ++ crlf) (14 + 2) = some (9 + lineA.length + 16) := by
    unfold strFindFrom
    rw [show 14 + 2 = 16 from rfl, hdrop,
        strFind_append_of_head_notin lineA _ _ (by decide) hhead,
        show strFind (str "\r\nHost: x\r\n\r\n") (crlf ++ crlf) = some 9 from rfl]
    rfl
  have hblock : substr
      (str "GET / HTTP/1.1\r\n" ++ (lineA ++ str "\r\nHost: x\r\n\r\n"))
      (14 + 2) (9 + lineA.length + 16 - (14 + 2))
      = lineA ++ str "\r\nHost: x" := by
    unfold substr
    rw [show 14 + 2 = 16 from rfl, hdrop,
        show 9 + lineA.length + 16 - 16 = lineA.length + 9 from by omega,
        take_append_len]
    rfl
  have hheaders : HttpRequest.parseHeaders [] (lineA ++ str "\r\nHost: x")
      = [(str "Host", str "x")] := by
    unfold HttpRequest.parseHeaders
    rw [show lineA ++ str "\r\nHost: x"
          = lineA ++ '\r' :: '\n' :: str "Host: x" from rfl,
        splitLinesCRLF_skip lineA _ hcr]
    rw [show splitLinesCRLF (str "Host: x") = [str "Host: x"] from rfl]
    rw [List.foldl_cons, parseHeaderLine_no_colon [] lineA hcol]
    rfl
  have hlen : (str "GET / HTTP/1.1\r\n"
      ++ (lineA ++ str "\r\nHost: x\r\n\r\n")).length = lineA.length + 29 := by
    rw [List.length_append, List.length_append,
        show (str "GET / HTTP/1.1\r\n").length = 16 from rfl,
        show (str "\r\nHost: x\r\n\r\n").length = 13 from rfl]
    omega
  have hbody : HttpRequest.parseBody [(str "Host", str "x")]
      (str "GET / HTTP/1.1\r\n" ++ (lineA ++ str "\r\nHost: x\r\n\r\n"))
      (9 + lineA.length + 16 + 4) = some [] := by
    rw [HttpRequest.parseBody, if_neg]
    rw [hlen]
    omega
  simp only [HttpRequest.parse, hf1,
    show (str "GET / HTTP/1.1\r\n"
        ++ (lineA ++ str "\r\nHost: x\r\n\r\n")).take 14
      = str "GET / HTTP/1.1" from rfl,
    show HttpRequest.parseStartLine (str "GET / HTTP/1.1")
      = some (str "GET", str "/", str "HTTP/1.1") from rfl,
    hf2, hblock, hheaders, hbody]

/-- C10 witness: the skip rule applied at the malformed line
`garbage`. -/
theorem parse_skips_header_line_without_colon_witness :
    HttpRequest.parse
        (str "GET / HTTP/1.1\r\n" ++ (str "garbage" ++ str "\r\nHost: x\r\n\r\n"))
      = some { method := str "GET", uri := str "/",
               version := str "HTTP/1.1",
               headers := [(str "Host", str "x")], body := [] } :=
  parse_skips_header_line_without_colon (str "garbage") (by decide) (by decide)

theorem getBuilder_no_connection_header (fs : FileSystem) (cfg : Config)
    (req : HttpRequest) (r : HttpResponse)
    (h : GetResponseBuilder.buildResponse fs cfg req = .ok r) :
    getHeader r.headers (str "Connection") = none := by
  simp only [GetResponseBuilder.buildResponse] at h
  split at h
  · exact Except.noConfusion h
  · split at h
    · exact Except.noConfusion h
    · split at h
      · exact Except.noConfusion h
      · split at h
        · injection h with hr
          rw [← hr]
          rfl
        · split at h
          · exact Except.noConfusion h
          · injection h with hr
            rw [← hr]
            rfl

theorem postBuilder_connection_close (req : HttpRequest) (r : HttpResponse)
    (h : PostResponseBuilder.buildResponse req = .ok r) :
    getHeader r.headers (str "Connection") = some (str "close") := by
  simp only [PostResponseBuilder.buildResponse] at h
  split at h
  · exact Except.noConfusion h
  · split at h
    · exact Except.noConfusion h
    · injection h with hr
      rw [← hr]
      rfl

theorem composeError_connection_close (code : http.status.Code) :
    getHeader (ResponseComposer.composeErrorMessage {} code).1.headers
      (str "Connection") = some (str "close") := rfl

theorem connectionUpdate_headers_of_some (req : HttpRequest)
    (res : HttpResponse) (v0 : List Char)
    (h : getHeader res.headers (str "Connection") = some v0) :
    (ConnectionHandler.connectionUpdate req res).1.headers = res.headers := by
  unfold ConnectionHandler.connectionUpdate
  cases hreq : getHeader req.headers (str "Connection") with
  | none =>
    simp only
    exact setHeader_of_getHeader_some res.headers _ v0 _ h
  | some v =>
    by_cases hv : v = str "keep-alive"
    · simp only [if_pos hv]
      exact setHeader_of_getHeader_some res.headers _ v0 _ h
    · simp only [if_neg hv]
      exact setHeader_of_getHeader_some res.headers _ v0 _ h

theorem connectionUpdate_headers_of_none (req : HttpRequest)
    (res : HttpResponse)
    (h : getHeader res.headers (str "Connection") = none) :
    getHeader (ConnectionHandler.connectionUpdate req res).1.headers
        (str "Connection")
      = some (match getHeader req.headers (str "Connection") with
              | some v => if v = str "keep-alive" then str "keep-alive"
                          else str "close"
              | none => str "keep-alive") := by
  unfold ConnectionHandler.connectionUpdate
  cases hreq : getHeader req.headers (str "Connection") with
  | none =>
    simp only
    exact getHeader_setHeader_of_none res.headers _ _ h (lowerEq_refl _)
  | some v =>
    by_cases hv : v = str "keep-alive"
    · simp only [if_pos hv]
      exact getHeader_setHeader_of_none res.headers _ _ h (lowerEq_refl _)
    · simp only [if_neg hv]
      exact getHeader_setHeader_of_none res.headers _ _ h (lowerEq_refl _)

/-- C5 counterexample: a GET request carrying `Connection: Keep-Alive`
(capitalized, so not the exact token `keep-alive`) is answered with
`Connection: close` although the client did not ask for close, the
request is not POST /submit, and the response is a successful build,
not an error. -/
theorem connection_close_without_close_request :
    getHeader (ConnectionHandler.handleRequestResponse fsExample cfgExample
        reqKeepAliveCaps).headers (str "Connection") = some (str "close")
    ∧ getHeader reqKeepAliveCaps.headers (str "Connection")
        = some (str "Keep-Alive")
    ∧ str "Keep-Alive" ≠ str "close"
    ∧ http.method.fromString reqKeepAliveCaps.method ≠ http.method.Method.POST
    ∧ ConnectionHandler.dispatchBuild fsExample cfgExample reqKeepAliveCaps
      = .ok { status := .OK,
              headers := [(str "Content-Type", str "text/html"),
                          (str "Content-Length", str "3")],
              body := str "abc", isStatic := false } :=
  ⟨rfl, rfl, by decide, by decide, rfl⟩

/-- C5 amended: on the handler's response path, the Connection header
sent is `keep-alive` by default and is `close` exactly when the request
carries a Connection header whose value differs from the exact token
`keep-alive` (not only the value `close`), or the build step returned
an error (the composed error response), or the request was a
successfully handled POST (which is only POST /submit with form
content). -/
theorem connection_close_characterization (fs : FileSystem) (cfg : Config)
    (req : HttpRequest) :
    getHeader (ConnectionHandler.handleRequestResponse fs cfg req).headers
        (str "Connection") = some (str "close")
    ↔ ((∃ v, getHeader req.headers (str "Connection") = some v
          ∧ v ≠ str "keep-alive")
       ∨ (∃ c, ConnectionHandler.dispatchBuild fs cfg req = .error c)
       ∨ (http.method.fromString req.method = .POST
          ∧ ∃ r, ConnectionHandler.dispatchBuild fs cfg req = .ok r)) := by
  cases hd : ConnectionHandler.dispatchBuild fs cfg req with
  | error c =>
    have hfin : getHeader (ConnectionHandler.handleRequestResponse fs cfg
        req).headers (str "Connection") = some (str "close") := by
      simp only [ConnectionHandler.handleRequestResponse, hd]
      rw [connectionUpdate_headers_of_some req _ _
        (composeError_connection_close c)]
      exact composeError_connection_close c
    rw [hfin]
    exact iff_of_true rfl (Or.inr (Or.inl ⟨c, rfl⟩))
  | ok r =>
    have hnotmp : ∀ c, ¬ (Except.ok r : Except http.status.Code HttpResponse)
        = .error c := fun c hc => Except.noConfusion hc
    cases hm : http.method.fromString req.method with
    | INVALID =>
      rw [show ConnectionHandler.dispatchBuild fs cfg req
            = .error .NOT_IMPLEMENTED from by
          simp only [ConnectionHandler.dispatchBuild, hm]
          rfl] at hd
      exact Except.noConfusion hd
    | POST =>
      have hpost : PostResponseBuilder.buildResponse req = .ok r := by
        rw [show ConnectionHandler.dispatchBuild fs cfg req
              = PostResponseBuilder.buildResponse req from by
            simp only [ConnectionHandler.dispatchBuild, hm]
            rfl] at hd
        exact hd
      have hconn := postBuilder_connection_close req r hpost
      have hfin : getHeader (ConnectionHandler.handleRequestResponse fs cfg
          req).headers (str "Connection") = some (str "close") := by
        simp only [ConnectionHandler.handleRequestResponse, hd]
        rw [connectionUpdate_headers_of_some req r _ hconn]
        exact hconn
      rw [hfin]
      exact iff_of_true rfl (Or.inr (Or.inr ⟨rfl, r, rfl⟩))
    | GET =>
      have hget : GetResponseBuilder.buildResponse fs cfg req = .ok r := by
        rw [show ConnectionHandler.dispatchBuild fs cfg req
              = GetResponseBuilder.buildResponse fs cfg req from by
            simp only [ConnectionHandler.dispatchBuild, hm]
            rfl] at hd
        exact hd
      have hconn := getBuilder_no_connection_header fs cfg req r hget
      have hfin := connectionUpdate_headers_of_none req r hconn
      cases hreq : getHeader req.headers (str "Connection") with
      | none =>
        rw [hreq] at hfin
        have hfin1 : getHeader (ConnectionHandler.connectionUpdate req
            r).1.headers (str "Connection") = some (str "keep-alive") := hfin
        have hfin2 : getHeader (ConnectionHandler.handleRequestResponse fs cfg
            req).headers (str "Connection") = some (str "keep-alive") := by
          simp only [ConnectionHandler.handleRequestResponse, hd]
          exact hfin1
        rw [hfin2]
        apply iff_of_false
        · intro hcl
          have : str "keep-alive" = str "close" := by injection hcl
          exact absurd this (by decide)
        · rintro (⟨v, hv, _⟩ | ⟨c, hc⟩ | ⟨hmp, _, _⟩)
          · exact Option.noConfusion hv
          · exact hnotmp c hc
          · exact http.method.Method.noConfusion hmp
      | some v =>
        rw [hreq] at hfin
        have hfin1 : getHeader (ConnectionHandler.connectionUpdate req
            r).1.headers (str "Connection")
            = some (if v = str "keep-alive" then str "keep-alive"
                    else str "close") := hfin
        by_cases hv : v = str "keep-alive"
        · rw [if_pos hv] at hfin1
          have hfin2 : getHeader (ConnectionHandler.handleRequestResponse fs
              cfg req).headers (str "Connection")
              = some (str "keep-alive") := by
            simp only [ConnectionHandler.handleRequestResponse, hd]
            exact hfin1
          rw [hfin2]
          apply iff_of_false
          · intro hcl
            have : str "keep-alive" = str "close" := by injection hcl
            exact absurd this (by decide)
          · rintro (⟨v2, hv2, hvne⟩ | ⟨c, hc⟩ | ⟨hmp, _, _⟩)
            · have hveq : v = v2 := by injection hv2
              exact hvne (by rw [← hveq, hv])
            · exact hnotmp c hc
            · exact http.method.Method.noConfusion hmp
        · rw [if_neg hv] at hfin1
          have hfin2 : getHeader (ConnectionHandler.handleRequestResponse fs
              cfg req).headers (str "Connection") = some (str "close") := by
            simp only [ConnectionHandler.handleRequestResponse, hd]
            exact hfin1
          rw [hfin2]
          exact iff_of_true rfl (Or.inl ⟨v, rfl, hv⟩)

theorem sanitizePath_ok_stat (fs : FileSystem) (cfg : Config)
    (uri p : List Char)
    (h : FileResolver.sanitizePath fs cfg uri = .ok p) :
    fs.statExists p = true ∧ fs.statIsReg p = true := by
  cases hr : fs.realpath cfg.rootFolder with
  | none =>
    simp only [FileResolver.sanitizePath, hr] at h
    exact Except.noConfusion h
  | some root =>
    cases ht : fs.realpath (FileResolver.targetPathOf cfg root uri) with
    | none =>
      simp only [FileResolver.sanitizePath, hr, ht] at h
      exact Except.noConfusion h
    | some fullPath =>
      simp only [FileResolver.sanitizePath, hr, ht] at h
      by_cases hp : strFind fullPath root = some 0
      · rw [if_pos hp] at h
        by_cases he : fs.statExists fullPath = true
        · rw [if_pos he] at h
          by_cases hg : fs.statIsReg fullPath = true
          · rw [if_pos hg] at h
            have hfp : fullPath = p := by injection h
            rw [← hfp]
            exact ⟨he, hg⟩
          · rw [if_neg hg] at h
            exact absurd h (by simp)
        · rw [if_neg he] at h
          exact absurd h (by simp)
      · rw [if_neg hp] at h
        exact absurd h (by simp)

/-- C7: for a GET whose URI resolves to a regular file with a known
extension, the builder answers 200 OK: above the 128 KiB threshold a
static-flagged response with empty body, Content-Type, Content-Length
from the stat size and the canonical path in the private File-Path
header; at or below it a non-static response holding the full file
contents with a matching Content-Length. -/
theorem getBuilder_threshold_behavior (fs : FileSystem) (cfg : Config)
    (req : HttpRequest) (p : List Char)
    (hs : FileResolver.sanitizePath fs cfg req.uri = .ok p)
    (hm : http.mime.fromExtension (GetResponseBuilder.extOf p)
      ≠ http.mime.Media.INVALID) :
    (fs.fileSize p > ResponseBuilder.MAX_FILE_SIZE →
      GetResponseBuilder.buildResponse fs cfg req
        = .ok { status := .OK,
                headers := [(str "Content-Type",
                             http.mime.toStr (http.mime.fromExtension
                               (GetResponseBuilder.extOf p))),
                            (str "Content-Length", natToStr (fs.fileSize p)),
                            (str "File-Path", p)],
                body := [], isStatic := true })
    ∧ (fs.fileSize p ≤ ResponseBuilder.MAX_FILE_SIZE →
        ∀ content, fs.readFile p = .ok content →
          GetResponseBuilder.buildResponse fs cfg req
            = .ok { status := .OK,
                    headers := [(str "Content-Type",
                                 http.mime.toStr (http.mime.fromExtension
                                   (GetResponseBuilder.extOf p))),
                                (str "Content-Length",
                                 natToStr content.length)],
                    body := content, isStatic := false }) := by
  obtain ⟨he, hg⟩ := sanitizePath_ok_stat fs cfg req.uri p hs
  have hstat : ¬ (fs.statExists p = false ∨ fs.statIsReg p = false) := by
    rw [he, hg]
    simp
  constructor
  · intro hbig
    simp only [GetResponseBuilder.buildResponse, hs, if_neg hstat, if_neg hm,
      if_pos hbig]
    rfl
  · intro hsmall content hread
    have hnotbig : ¬ fs.fileSize p > ResponseBuilder.MAX_FILE_SIZE := by
      omega
    simp only [GetResponseBuilder.buildResponse, hs, if_neg hstat, if_neg hm,
      if_neg hnotbig, hread]
    rfl

/-- C7 witness: the threshold behavior applied at the 3-byte file
`/srv/www/a.html` of the example filesystem. -/
theorem getBuilder_threshold_behavior_witness :
    GetResponseBuilder.buildResponse fsExample cfgExample reqKeepAliveCaps
      = .ok { status := .OK,
              headers := [(str "Content-Type",
                           http.mime.toStr (http.mime.fromExtension
                             (GetResponseBuilder.extOf (str "/srv/www/a.html")))),
                          (str "Content-Length",
                           natToStr (str "abc").length)],
              body := str "abc", isStatic := false } :=
  (getBuilder_threshold_behavior fsExample cfgExample reqKeepAliveCaps
      (str "/srv/www/a.html") rfl (by decide)).2 (by decide) (str "abc") rfl
